import Mathlib

/-!
Verification of the MARTE relativistic state-interpolation pipeline.

The frontend's interpolation hook (`useWorldlineInterpolation` in
`ResultsPanel.tsx`), the animation clock (`useAnimationState.ts`) and the
starfield optical transform (`starfieldShader.ts`) are embedded shallowly:

* JavaScript numbers are modelled as exact rationals (`ℚ`); quantities whose
  computation requires a square root (the Lorentz factor, the shader's
  trigonometry) are modelled over `ℝ` in a separate section.
* Scalar array accesses `arr[i]!` out of range yield `undefined` in
  JavaScript, which flows through arithmetic as `NaN` without raising; they
  are modelled with `List.getD`.  Accessing an *element of a missing row*
  (`positions[i]![0]`) raises a `TypeError`; row fetches are therefore
  modelled in an `Except` monad (`rowGet`), and the interpolator returns
  `Except JsError (Option InterpolatedState)`: `.ok none` is the hook's
  `null`, `.error` a thrown `TypeError`.
* The returned state carries the fields the verified claims speak about
  (coordinate time, proper time, position, clamped β, phase, reference-body
  position).  The Lorentz factor is `gammaOf` applied to the stored clamped
  β, exactly as the source computes `gamma` from the clamped `beta`; the
  velocity direction and the distance to Earth need square roots and are not
  referenced by any claim.
-/

namespace Marte

/-- The JavaScript exception raised by reading a property of `undefined`. -/
inductive JsError where
  | typeError
deriving DecidableEq

/-- Fields of the solver's `SolutionData` read by the interpolation hook. -/
structure SolutionData where
  beta : ℚ
  trajectory_model : String
  phase_boundaries_years : Option (List ℚ)
deriving DecidableEq

/-- Fields of `WorldlineData` read by the interpolation hook. -/
structure WorldlineData where
  coord_times_years : List ℚ
  positions_au : List (List ℚ)
  proper_times_years : List ℚ
  beta_profile : Option (List ℚ)
deriving DecidableEq

/-- Fields of `EarthData` read by the interpolation hook. -/
structure EarthData where
  trajectory_times_years : List ℚ
  trajectory_positions_au : List (List ℚ)
deriving DecidableEq

/-- The solver response as consumed by `useWorldlineInterpolation`. -/
structure SolveResponse where
  solution : Option SolutionData
  worldline : Option WorldlineData
  earth : Option EarthData
deriving DecidableEq

/-- The interpolated state (the fields the claims are about; phase is the
string literal the source returns). -/
structure InterpolatedState where
  coordTime : ℚ
  properTime : ℚ
  positionAU : ℚ × ℚ × ℚ
  beta : ℚ
  phase : String
  earthPositionAU : ℚ × ℚ × ℚ
deriving DecidableEq

/-- The loop of `findInterval`: `while (lo < hi) { mid = (lo+hi+1)>>1;
if (arr[mid] <= target) lo = mid; else hi = mid - 1; }`. -/
def findIntervalAux (arr : List ℚ) (target : ℚ) (lo hi : ℕ) : ℕ :=
  if lo < hi then
    let mid := (lo + hi + 1) / 2
    if arr.getD mid 0 ≤ target then findIntervalAux arr target mid hi
    else findIntervalAux arr target lo (mid - 1)
  else lo
termination_by hi - lo
decreasing_by
  · omega
  · omega

/-- Binary search for the interval containing `target` in a sorted array:
`lo = 0`, `hi = arr.length - 2`. -/
def findInterval (arr : List ℚ) (target : ℚ) : ℕ :=
  findIntervalAux arr target 0 (arr.length - 2)

/-- `lerp(a, b, t) = a + (b - a) * t`. -/
def lerp (a b t : ℚ) : ℚ :=
  a + (b - a) * t

/-- `lerpPos`: per-axis linear interpolation of two position rows. -/
def lerpPos (a b : List ℚ) (t : ℚ) : ℚ × ℚ × ℚ :=
  (lerp (a.getD 0 0) (b.getD 0 0) t,
   lerp (a.getD 1 0) (b.getD 1 0) t,
   lerp (a.getD 2 0) (b.getD 2 0) t)

/-- Fetch row `i` of a positions array.  In the source a missing row is
`undefined` and the immediately following element access throws a
`TypeError`; the fetch is therefore modelled as fallible. -/
def rowGet (rows : List (List ℚ)) (i : ℕ) : Except JsError (List ℚ) :=
  match rows.get? i with
  | some r => .ok r
  | none => .error .typeError

/-- `interpolateEarthPosition`: reference-body position at `coordTime`, with
the `[1, 0, 0]` fallback for an empty trajectory and clamping to the first /
last sample outside the trajectory's own time range. -/
def interpolateEarthPosition (earth : EarthData) (coordTime : ℚ) :
    Except JsError (ℚ × ℚ × ℚ) :=
  let times := earth.trajectory_times_years
  let positions := earth.trajectory_positions_au
  if times.length = 0 then .ok (1, 0, 0)
  else if coordTime ≤ times.getD 0 0 then
    match rowGet positions 0 with
    | .error e => .error e
    | .ok p => .ok (p.getD 0 0, p.getD 1 0, p.getD 2 0)
  else if times.getD (times.length - 1) 0 ≤ coordTime then
    match rowGet positions (positions.length - 1) with
    | .error e => .error e
    | .ok p => .ok (p.getD 0 0, p.getD 1 0, p.getD 2 0)
  else
    let i := findInterval times coordTime
    let t0 := times.getD i 0
    let t1 := times.getD (i + 1) 0
    let frac := if t0 < t1 then (coordTime - t0) / (t1 - t0) else 0
    match rowGet positions i, rowGet positions (i + 1) with
    | .error e, _ => .error e
    | .ok _, .error e => .error e
    | .ok p0, .ok p1 => .ok (lerpPos p0 p1 frac)

/-- `determinePhaseV1`: constant-velocity model, phase from progress alone. -/
def determinePhaseV1 (progress : ℚ) : String :=
  if progress < 1/2 then "ACCELERATING"
  else if 1/2 < progress then "DECELERATING"
  else "TURNAROUND"

/-- `determinePhaseV2`: multi-phase model, phase from the coordinate time
against the ordered boundary times. -/
def determinePhaseV2 (coordTime : ℚ) (phaseBoundaries : List ℚ) : String :=
  if 4 ≤ phaseBoundaries.length then
    if coordTime < phaseBoundaries.getD 0 0 then "ACCELERATING"
    else if coordTime < phaseBoundaries.getD 1 0 then "COASTING"
    else if coordTime < phaseBoundaries.getD 2 0 then "TURNAROUND"
    else "DECELERATING"
  else if 2 ≤ phaseBoundaries.length then
    if coordTime < phaseBoundaries.getD 0 0 then "ACCELERATING"
    else if coordTime < phaseBoundaries.getD 1 0 then "DECELERATING"
    else "DECELERATING"
  else "ACCELERATING"

/-- `const coordTime = lerp(tStart, tEnd, progress)` with
`tStart = times[0]` and `tEnd = times[n-1]`. -/
def coordTimeOf (worldline : WorldlineData) (progress : ℚ) : ℚ :=
  let times := worldline.coord_times_years
  lerp (times.getD 0 0) (times.getD (times.length - 1) 0) progress

/-- `const i = findInterval(times, coordTime)`. -/
def intervalOf (worldline : WorldlineData) (progress : ℚ) : ℕ :=
  findInterval worldline.coord_times_years (coordTimeOf worldline progress)

/-- `const frac = t1 > t0 ? (coordTime - t0) / (t1 - t0) : 0`. -/
def fracOf (worldline : WorldlineData) (progress : ℚ) : ℚ :=
  let times := worldline.coord_times_years
  let t0 := times.getD (intervalOf worldline progress) 0
  let t1 := times.getD (intervalOf worldline progress + 1) 0
  if t0 < t1 then (coordTimeOf worldline progress - t0) / (t1 - t0) else 0

/-- `const properTime = lerp(properTimes[i], properTimes[i+1], frac)`. -/
def properTimeOf (worldline : WorldlineData) (progress : ℚ) : ℚ :=
  lerp (worldline.proper_times_years.getD (intervalOf worldline progress) 0)
    (worldline.proper_times_years.getD (intervalOf worldline progress + 1) 0)
    (fracOf worldline progress)

/-- The raw `beta`: interpolated from the beta profile when it is present
and matches the worldline length, otherwise the solution's scalar `beta`. -/
def betaRawOf (solution : SolutionData) (worldline : WorldlineData) (progress : ℚ) : ℚ :=
  match worldline.beta_profile with
  | some bp =>
    if bp.length = worldline.coord_times_years.length then
      lerp (bp.getD (intervalOf worldline progress) 0)
        (bp.getD (intervalOf worldline progress + 1) 0) (fracOf worldline progress)
    else solution.beta
  | none => solution.beta

/-- `beta = Math.max(0, Math.min(beta, 0.9999))`. -/
def clampBeta (beta : ℚ) : ℚ :=
  max 0 (min beta 0.9999)

/-- Phase selection: `isV2 && solution.phase_boundaries_years ?
determinePhaseV2(coordTime, ...) : determinePhaseV1(progress)`. -/
def phaseOf (solution : SolutionData) (coordTime progress : ℚ) : String :=
  if solution.trajectory_model = "constant_acceleration" then
    match solution.phase_boundaries_years with
    | some pb => determinePhaseV2 coordTime pb
    | none => determinePhaseV1 progress
  else determinePhaseV1 progress

/-- Body of `useWorldlineInterpolation` once the three data structures are
present (the code after the destructuring of the response). -/
def interpCore (solution : SolutionData) (worldline : WorldlineData)
    (earth : EarthData) (progress : ℚ) :
    Except JsError (Option InterpolatedState) :=
  if worldline.coord_times_years.length < 2 then .ok none
  else
    let coordTime := coordTimeOf worldline progress
    let i := intervalOf worldline progress
    match rowGet worldline.positions_au i, rowGet worldline.positions_au (i + 1) with
    | .error e, _ => .error e
    | .ok _, .error e => .error e
    | .ok p0, .ok p1 =>
      match interpolateEarthPosition earth coordTime with
      | .error e => .error e
      | .ok earthPositionAU =>
        .ok (some { coordTime := coordTime,
                    properTime := properTimeOf worldline progress,
                    positionAU := lerpPos p0 p1 (fracOf worldline progress),
                    beta := clampBeta (betaRawOf solution worldline progress),
                    phase := phaseOf solution coordTime progress,
                    earthPositionAU := earthPositionAU })

/-- `useWorldlineInterpolation(response, progress)`: `null` when the response
or any of solution / worldline / earth is absent, otherwise `interpCore`. -/
def useWorldlineInterpolation (response : Option SolveResponse) (progress : ℚ) :
    Except JsError (Option InterpolatedState) :=
  match response with
  | none => .ok none
  | some r =>
    match r.solution, r.worldline, r.earth with
    | some solution, some worldline, some earth =>
      interpCore solution worldline earth progress
    | _, _, _ => .ok none

/-- Pick row `i` of a positions array and read its three axes (with the
out-of-range reads that JavaScript maps to `undefined` defaulted, matching
`lerpPos`'s element reads). -/
def rowVal (rows : List (List ℚ)) (i : ℕ) : ℚ × ℚ × ℚ :=
  ((rows.getD i []).getD 0 0, (rows.getD i []).getD 1 0, (rows.getD i []).getD 2 0)

/-- `gamma = 1 / Math.sqrt(1 - beta * beta)`, computed from the (already
clamped) stored `beta`. -/
noncomputable def gammaOf (beta : ℚ) : ℝ :=
  1 / Real.sqrt (1 - (beta : ℝ) * (beta : ℝ))

/-! ### The reference linear scan (the spec's model for the binary search)

The specification's testable property compares the binary search against a
linear scan over the same monotonic array.  `linearScanInterval` is that
reference definition, written from the spec's words: walk the intervals from
the left and select the first `i` with `target < arr[i+1]`, capping at the
final interval `n-2`. -/

def linearScanAux (arr : List ℚ) (target : ℚ) (i : ℕ) : ℕ :=
  if i + 2 < arr.length then
    if target < arr.getD (i + 1) 0 then i
    else linearScanAux arr target (i + 1)
  else i
termination_by arr.length - i

/-- The spec's linear scan selecting the `i` with `arr[i] ≤ target < arr[i+1]`. -/
def linearScanInterval (arr : List ℚ) (target : ℚ) : ℕ :=
  linearScanAux arr target 0

/-! ### The Animation Clock (`useAnimationState.ts`) -/

/-- `BASE_DURATION_MS = 10_000`. -/
def BASE_DURATION_MS : ℚ := 10000

/-- The clock's mutable state: the refs `progressRef`, `playingRef`,
`speedRef` and `lastFrameRef` (0 plays the role of the unset anchor, as in
the source's `lastFrameRef.current > 0` test). -/
structure ClockState where
  progress : ℚ
  playing : Bool
  speed : ℚ
  lastFrame : ℚ
deriving DecidableEq

/-- Initial state: not playing, progress 0, speed 1, no frame anchor. -/
def initialClock : ClockState :=
  { progress := 0, playing := false, speed := 1, lastFrame := 0 }

/-- The clock's operations; `tick now` is one scheduled animation frame
with wall-clock timestamp `now`. -/
inductive ClockOp where
  | play
  | pause
  | seek (p : ℚ)
  | setSpeed (s : ℚ)
  | reset
  | tick (now : ℚ)
deriving DecidableEq

/-- One frame of `tick`: no-op unless playing; with an anchor set, advance
progress by `(dt / BASE_DURATION_MS) * speed` clamped to at most 1, and stop
at the end; always (re)anchor `lastFrame` while playing. -/
def clockTick (now : ℚ) (s : ClockState) : ClockState :=
  if !s.playing then s
  else if 0 < s.lastFrame then
    let dt := now - s.lastFrame
    let dp := dt / BASE_DURATION_MS * s.speed
    let next := min 1 (s.progress + dp)
    if 1 ≤ next then
      { s with progress := next, playing := false, lastFrame := 0 }
    else
      { s with progress := next, lastFrame := now }
  else
    { s with lastFrame := now }

/-- Apply one operation, translated clause by clause from the hook's
callbacks. -/
def applyOp : ClockOp → ClockState → ClockState
  | .play, s =>
    let s' := if 1 ≤ s.progress then { s with progress := 0 } else s
    { s' with playing := true, lastFrame := 0 }
  | .pause, s => { s with playing := false, lastFrame := 0 }
  | .seek p, s => { s with progress := max 0 (min 1 p), lastFrame := 0 }
  | .setSpeed v, s => { s with speed := v }
  | .reset, s =>
    let s' := { s with playing := false, lastFrame := 0 }
    { s' with progress := 0 }
  | .tick now, s => clockTick now s

/-- Run a sequence of operations from the initial state. -/
def runOps (ops : List ClockOp) : ClockState :=
  ops.foldl (fun s op => applyOp op s) initialClock

/-- The `AnimationClockState` invariant: progress in [0,1], speed > 0. -/
def clockInv (s : ClockState) : Prop :=
  0 ≤ s.progress ∧ s.progress ≤ 1 ∧ 0 < s.speed

instance (s : ClockState) : Decidable (clockInv s) := by
  unfold clockInv
  infer_instance

/-- Validity of one operation in a state: frames never run backwards
(non-negative wall-clock delta) and `setSpeed` receives a positive
multiplier (the UI offers 1x/2x/5x/10x). -/
def opValid (s : ClockState) : ClockOp → Prop
  | .tick now => s.lastFrame ≤ now
  | .setSpeed v => 0 < v
  | _ => True

instance (s : ClockState) (op : ClockOp) : Decidable (opValid s op) := by
  unfold opValid
  cases op <;> infer_instance

/-- A valid trace: each operation valid in the state it is applied to. -/
def validSeq : ClockState → List ClockOp → Prop
  | _, [] => True
  | s, op :: rest => opValid s op ∧ validSeq (applyOp op s) rest

instance (s : ClockState) (ops : List ClockOp) : Decidable (validSeq s ops) := by
  induction ops generalizing s with
  | nil => exact .isTrue trivial
  | cons op rest ih =>
    have := ih (applyOp op s)
    unfold validSeq
    infer_instance

/-! ### The starfield optical transform (`starfieldShader.ts`)

Modelled over `ℝ` per rendered point: the shader receives the uniforms
`uBeta`, `uGamma`, `uVelocityDir` and the point's unit direction
`dir = normalize(position)`. -/

/-- GLSL `clamp(x, lo, hi)`. -/
noncomputable def glslClamp (x lo hi : ℝ) : ℝ :=
  min (max x lo) hi

/-- GLSL `sign`. -/
noncomputable def glslSign (x : ℝ) : ℝ :=
  if 0 < x then 1 else if x < 0 then -1 else 0

/-- 3-vector dot product. -/
def dot3 (a b : ℝ × ℝ × ℝ) : ℝ :=
  a.1 * b.1 + a.2.1 * b.2.1 + a.2.2 * b.2.2

/-- Scalar multiple of a 3-vector. -/
def smul3 (c : ℝ) (a : ℝ × ℝ × ℝ) : ℝ × ℝ × ℝ :=
  (c * a.1, c * a.2.1, c * a.2.2)

/-- Difference of 3-vectors. -/
def sub3 (a b : ℝ × ℝ × ℝ) : ℝ × ℝ × ℝ :=
  (a.1 - b.1, a.2.1 - b.2.1, a.2.2 - b.2.2)

/-- Sum of 3-vectors. -/
def add3 (a b : ℝ × ℝ × ℝ) : ℝ × ℝ × ℝ :=
  (a.1 + b.1, a.2.1 + b.2.1, a.2.2 + b.2.2)

/-- `cosThetaPrime = clamp((cosTheta - uBeta) / max(denom, 0.001), -1, 1)`
with `denom = 1 - uBeta * cosTheta`. -/
noncomputable def cosThetaPrimeOf (beta cosTheta : ℝ) : ℝ :=
  glslClamp ((cosTheta - beta) / max (1 - beta * cosTheta) 0.001) (-1) 1

/-- `doppler = clamp(1 / max(uGamma * denom, 0.01), 0.1, 10)`. -/
noncomputable def dopplerOf (beta gamma cosTheta : ℝ) : ℝ :=
  glslClamp (1 / max (gamma * (1 - beta * cosTheta)) 0.01) 0.1 10

/-- The vertex shader's reconstruction of the aberrated direction from the
point's unit direction `dir` and the unit velocity direction `v`. -/
noncomputable def aberratedDir (beta : ℝ) (v dir : ℝ × ℝ × ℝ) : ℝ × ℝ × ℝ :=
  let cosTheta := dot3 dir v
  let cosThetaP := cosThetaPrimeOf beta cosTheta
  let sinTheta := Real.sqrt (1 - cosTheta * cosTheta)
  let sinThetaP := Real.sqrt (1 - cosThetaP * cosThetaP)
  if 0.001 < sinTheta then
    let perpDir := smul3 (1 / sinTheta) (sub3 dir (smul3 cosTheta v))
    add3 (smul3 cosThetaP v) (smul3 sinThetaP perpDir)
  else
    smul3 (glslSign cosTheta) v

/-! ### Concrete instances used by the witness and counterexample theorems -/

/-- The spec's interpolation scenario: 3 samples at coordinate times
[0, 1, 2] years, positions [(0,0,0), (1,0,0), (0,0,0)], proper times
[0, 0.8, 1.5]. -/
def wl5 : WorldlineData :=
  { coord_times_years := [0, 1, 2],
    positions_au := [[0, 0, 0], [1, 0, 0], [0, 0, 0]],
    proper_times_years := [0, 0.8, 1.5],
    beta_profile := none }

/-- A constant-velocity solution with β = 0.5. -/
def sol5 : SolutionData :=
  { beta := 0.5, trajectory_model := "constant_velocity",
    phase_boundaries_years := none }

/-- Reference-body data that is present but has zero samples. -/
def earthEmpty : EarthData :=
  { trajectory_times_years := [], trajectory_positions_au := [] }

/-- Complete response for the interpolation scenario. -/
def resp5 : SolveResponse :=
  { solution := some sol5, worldline := some wl5, earth := some earthEmpty }

/-- The state the scenario must produce at progress 0.25. -/
def state5 : InterpolatedState :=
  { coordTime := 0.5, properTime := 0.4, positionAU := (0.5, 0, 0), beta := 0.5,
    phase := "ACCELERATING", earthPositionAU := (1, 0, 0) }

/-- A two-sample worldline with corrupt-free geometry. -/
def wlC1 : WorldlineData :=
  { coord_times_years := [0, 1],
    positions_au := [[0, 0, 0], [1, 0, 0]],
    proper_times_years := [0, 1],
    beta_profile := none }

/-- A solution carrying a corrupt β above 1. -/
def solC1 : SolutionData :=
  { beta := 1.5, trajectory_model := "constant_velocity",
    phase_boundaries_years := none }

/-- Response whose raw β is the corrupt 1.5. -/
def respC1 : SolveResponse :=
  { solution := some solC1, worldline := some wlC1, earth := some earthEmpty }

/-- The state returned for `respC1` at progress 0: β clamped to 0.9999. -/
def stateC1 : InterpolatedState :=
  { coordTime := 0, properTime := 0, positionAU := (0, 0, 0), beta := 0.9999,
    phase := "ACCELERATING", earthPositionAU := (1, 0, 0) }

/-- Present-but-malformed response: two sample times but an empty positions
array (`positions[i]!` is `undefined` and `lerpPos` throws). -/
def respBadC2 : SolveResponse :=
  { solution := some solC1,
    worldline := some { coord_times_years := [0, 1], positions_au := [],
                        proper_times_years := [0, 1], beta_profile := none },
    earth := some earthEmpty }

/-- A valid clock trace exercising every operation. -/
def opsC7 : List ClockOp :=
  [.play, .tick 3, .tick 7, .setSpeed 2, .seek 0.4, .tick 9, .pause, .reset]

/-- A unit direction inside the shader's `sinTheta ≤ 0.001` fallback cone
but not parallel to the velocity direction: cosθ = 15999999/16000001,
sinθ = 8000/16000001 ≈ 0.0005. -/
noncomputable def dirC8 : ℝ × ℝ × ℝ :=
  (15999999 / 16000001, 8000 / 16000001, 0)

/-- Velocity direction +x. -/
noncomputable def vC8 : ℝ × ℝ × ℝ :=
  (1, 0, 0)

/-! ### Unfolding and loop-invariant lemmas for the binary search -/

theorem findIntervalAux_stop (arr : List ℚ) (target : ℚ) (lo hi : ℕ) (h : ¬ lo < hi) :
    findIntervalAux arr target lo hi = lo := by
  rw [findIntervalAux.eq_def, if_neg h]

theorem findIntervalAux_step_le (arr : List ℚ) (target : ℚ) (lo hi : ℕ) (h : lo < hi)
    (h2 : arr.getD ((lo + hi + 1) / 2) 0 ≤ target) :
    findIntervalAux arr target lo hi = findIntervalAux arr target ((lo + hi + 1) / 2) hi := by
  rw [findIntervalAux.eq_def, if_pos h]
  simp only [if_pos h2]

theorem findIntervalAux_step_gt (arr : List ℚ) (target : ℚ) (lo hi : ℕ) (h : lo < hi)
    (h2 : ¬ arr.getD ((lo + hi + 1) / 2) 0 ≤ target) :
    findIntervalAux arr target lo hi = findIntervalAux arr target lo ((lo + hi + 1) / 2 - 1) := by
  rw [findIntervalAux.eq_def, if_pos h]
  simp only [if_neg h2]

/-- The loop keeps its result between the initial `lo` and `hi`. -/
theorem findIntervalAux_bounds (arr : List ℚ) (target : ℚ) (lo hi : ℕ) (h : lo ≤ hi) :
    lo ≤ findIntervalAux arr target lo hi ∧ findIntervalAux arr target lo hi ≤ hi := by
  induction lo, hi using findIntervalAux.induct arr target with
  | case1 lo hi hlt mid hle ih =>
    have hmid : mid = (lo + hi + 1) / 2 := rfl
    rw [findIntervalAux.eq_def, if_pos hlt]
    simp only [← hmid, if_pos hle]
    have := ih (by omega)
    omega
  | case2 lo hi hlt mid hgt ih =>
    have hmid : mid = (lo + hi + 1) / 2 := rfl
    rw [findIntervalAux.eq_def, if_pos hlt]
    simp only [← hmid, if_neg hgt]
    have := ih (by omega)
    omega
  | case3 lo hi hnlt =>
    rw [findIntervalAux.eq_def, if_neg hnlt]
    omega

/-- Loop invariant `arr[lo] ≤ target < arr[hi+1]` is preserved and holds of
the returned index. -/
theorem findIntervalAux_spec (arr : List ℚ) (target : ℚ) (lo hi : ℕ) (h : lo ≤ hi)
    (hlo : arr.getD lo 0 ≤ target) (hhi : target < arr.getD (hi + 1) 0) :
    arr.getD (findIntervalAux arr target lo hi) 0 ≤ target ∧
      target < arr.getD (findIntervalAux arr target lo hi + 1) 0 := by
  induction lo, hi using findIntervalAux.induct arr target with
  | case1 lo hi hlt mid hle ih =>
    have hmid : mid = (lo + hi + 1) / 2 := rfl
    rw [findIntervalAux.eq_def, if_pos hlt]
    simp only [← hmid, if_pos hle]
    exact ih (by omega) hle hhi
  | case2 lo hi hlt mid hgt ih =>
    have hmid : mid = (lo + hi + 1) / 2 := rfl
    rw [findIntervalAux.eq_def, if_pos hlt]
    simp only [← hmid, if_neg hgt]
    have hmid1 : mid - 1 + 1 = mid := by omega
    refine ih (by omega) hlo ?_
    rw [hmid1]
    exact lt_of_not_le hgt
  | case3 lo hi hnlt =>
    rw [findIntervalAux.eq_def, if_neg hnlt]
    have hfin : lo = hi := by omega
    exact ⟨hlo, hfin ▸ hhi⟩

/-- When every element up to `hi` is at most the target, the loop returns
`hi` (the case of a target at or beyond the last sample). -/
theorem findIntervalAux_saturate (arr : List ℚ) (target : ℚ) (lo hi : ℕ) (h : lo ≤ hi)
    (hall : ∀ j, j ≤ hi → arr.getD j 0 ≤ target) :
    findIntervalAux arr target lo hi = hi := by
  induction lo, hi using findIntervalAux.induct arr target with
  | case1 lo hi hlt mid hle ih =>
    have hmid : mid = (lo + hi + 1) / 2 := rfl
    rw [findIntervalAux.eq_def, if_pos hlt]
    simp only [← hmid, if_pos hle]
    exact ih (by omega) hall
  | case2 lo hi hlt mid hgt ih =>
    have hmid : mid = (lo + hi + 1) / 2 := rfl
    exact absurd (hall mid (by omega)) hgt
  | case3 lo hi hnlt =>
    rw [findIntervalAux.eq_def, if_neg hnlt]
    omega

/-- `getD` access of two comparable indices of a strictly sorted list. -/
theorem sorted_getD_le (l : List ℚ) (hs : l.Sorted (· < ·)) (i j : ℕ) (hij : i ≤ j)
    (hj : j < l.length) : l.getD i 0 ≤ l.getD j 0 := by
  have hi : i < l.length := lt_of_le_of_lt hij hj
  rw [List.getD_eq_getElem l 0 hi, List.getD_eq_getElem l 0 hj]
  rcases eq_or_lt_of_le hij with rfl | hlt
  · exact le_refl _
  · exact le_of_lt (List.Sorted.rel_get_of_lt hs (a := ⟨i, hi⟩) (b := ⟨j, hj⟩) hlt)

/-- Strict version of `sorted_getD_le`. -/
theorem sorted_getD_lt (l : List ℚ) (hs : l.Sorted (· < ·)) (i j : ℕ) (hij : i < j)
    (hj : j < l.length) : l.getD i 0 < l.getD j 0 := by
  have hi : i < l.length := lt_trans hij hj
  rw [List.getD_eq_getElem l 0 hi, List.getD_eq_getElem l 0 hj]
  exact List.Sorted.rel_get_of_lt hs (a := ⟨i, hi⟩) (b := ⟨j, hj⟩) hij

/-- The result of `findInterval` stays within `[0, n-2]` (so the caller's
accesses at `i` and `i+1` are in range for arrays of length at least 2). -/
theorem findInterval_le (arr : List ℚ) (target : ℚ) :
    findInterval arr target ≤ arr.length - 2 :=
  (findIntervalAux_bounds arr target 0 (arr.length - 2) (Nat.zero_le _)).2

/-- The bracketing property of `findInterval` for a target inside the
array's range. -/
theorem findInterval_spec (arr : List ℚ) (target : ℚ) (h : 2 ≤ arr.length)
    (hlo : arr.getD 0 0 ≤ target) (hhi : target < arr.getD (arr.length - 1) 0) :
    arr.getD (findInterval arr target) 0 ≤ target ∧
      target < arr.getD (findInterval arr target + 1) 0 := by
  have h21 : arr.length - 2 + 1 = arr.length - 1 := by omega
  exact findIntervalAux_spec arr target 0 (arr.length - 2) (Nat.zero_le _) hlo (h21 ▸ hhi)

/-- Strictly sorted arrays have a unique bracketing interval. -/
theorem interval_unique (arr : List ℚ) (target : ℚ) (hs : arr.Sorted (· < ·))
    (i j : ℕ) (hi : i + 1 < arr.length) (hj : j + 1 < arr.length)
    (h1 : arr.getD i 0 ≤ target) (h2 : target < arr.getD (i + 1) 0)
    (h3 : arr.getD j 0 ≤ target) (h4 : target < arr.getD (j + 1) 0) : i = j := by
  by_contra hne
  rcases Nat.lt_or_ge i j with hij | hij
  · have : arr.getD (i + 1) 0 ≤ arr.getD j 0 :=
      sorted_getD_le arr hs (i + 1) j (by omega) (by omega)
    linarith
  · have hji : j < i := by omega
    have : arr.getD (j + 1) 0 ≤ arr.getD i 0 :=
      sorted_getD_le arr hs (j + 1) i (by omega) (by omega)
    linarith

/-! ### Inversion of a successful interpolation -/

theorem rowGet_ok_iff (rows : List (List ℚ)) (i : ℕ) (r : List ℚ) :
    rowGet rows i = .ok r ↔ rows.get? i = some r := by
  unfold rowGet
  cases h : rows.get? i <;> simp

/-- Inversion: a successfully returned state is exactly the record the
source builds, with both bracketing position rows present. -/
theorem interpCore_ok_some (solution : SolutionData) (worldline : WorldlineData)
    (earth : EarthData) (progress : ℚ) (s : InterpolatedState)
    (h : interpCore solution worldline earth progress = .ok (some s)) :
    2 ≤ worldline.coord_times_years.length ∧
    ∃ p0 p1 ep,
      worldline.positions_au.get? (intervalOf worldline progress) = some p0 ∧
      worldline.positions_au.get? (intervalOf worldline progress + 1) = some p1 ∧
      interpolateEarthPosition earth (coordTimeOf worldline progress) = .ok ep ∧
      s = { coordTime := coordTimeOf worldline progress,
            properTime := properTimeOf worldline progress,
            positionAU := lerpPos p0 p1 (fracOf worldline progress),
            beta := clampBeta (betaRawOf solution worldline progress),
            phase := phaseOf solution (coordTimeOf worldline progress) progress,
            earthPositionAU := ep } := by
  unfold interpCore at h
  simp only [] at h
  split at h
  · exact absurd h (by simp)
  · rename_i hn
    refine ⟨by omega, ?_⟩
    split at h
    · exact absurd h (by simp)
    · exact absurd h (by simp)
    · rename_i p0 p1 h0 h1
      split at h
      · exact absurd h (by simp)
      · rename_i ep hep
        refine ⟨p0, p1, ep, ?_, ?_, hep, ?_⟩
        · exact (rowGet_ok_iff _ _ _).mp h0
        · exact (rowGet_ok_iff _ _ _).mp h1
        · simpa using h.symm

/-! ### The Lorentz factor stays at least 1 on clamped β -/

theorem clampBeta_nonneg (b : ℚ) : 0 ≤ clampBeta b :=
  le_max_left 0 _

theorem clampBeta_le (b : ℚ) : clampBeta b ≤ 0.9999 :=
  max_le (by norm_num) (min_le_right _ _)

/-- Any β in `[0, 0.9999]` gives a Lorentz factor at least 1. -/
theorem one_le_gammaOf (b : ℚ) (h0 : 0 ≤ b) (h1 : b ≤ 0.9999) : 1 ≤ gammaOf b := by
  have hb0 : (0 : ℝ) ≤ (b : ℝ) := by exact_mod_cast h0
  have hbb : (b : ℝ) * (b : ℝ) < 1 := by
    have hq : b * b < 1 := by nlinarith
    exact_mod_cast hq
  have hpos : 0 < 1 - (b : ℝ) * (b : ℝ) := by linarith
  have hle : 1 - (b : ℝ) * (b : ℝ) ≤ 1 := by nlinarith
  have hs1 : Real.sqrt (1 - (b : ℝ) * (b : ℝ)) ≤ 1 := Real.sqrt_le_one.mpr hle
  have hspos : 0 < Real.sqrt (1 - (b : ℝ) * (b : ℝ)) := Real.sqrt_pos.mpr hpos
  unfold gammaOf
  rw [le_div_iff₀ hspos]
  linarith

/-- A successful interpolation forces all three data structures present. -/
theorem hook_ok_some (response : Option SolveResponse) (progress : ℚ) (s : InterpolatedState)
    (h : useWorldlineInterpolation response progress = .ok (some s)) :
    ∃ solution worldline earth,
      response = some ⟨some solution, some worldline, some earth⟩ ∧
      interpCore solution worldline earth progress = .ok (some s) := by
  match response with
  | none => exact absurd h (by simp [useWorldlineInterpolation])
  | some ⟨osol, ow, oe⟩ =>
    match osol, ow, oe with
    | some sol, some w, some e => exact ⟨sol, w, e, rfl, h⟩
    | none, _, _ => exact absurd h (by simp [useWorldlineInterpolation])
    | some _, none, _ => exact absurd h (by simp [useWorldlineInterpolation])
    | some _, some _, none => exact absurd h (by simp [useWorldlineInterpolation])

/-- C1: every state returned by the interpolation hook carries a velocity
fraction β in [0, 0.9999] — it is exactly the clamp of the raw β, whatever
that raw β was — and the Lorentz factor `1/sqrt(1-β²)` computed from that
clamped β is at least 1. -/
theorem returned_beta_clamped_gamma_ge_one (response : Option SolveResponse)
    (progress : ℚ) (s : InterpolatedState)
    (h : useWorldlineInterpolation response progress = .ok (some s)) :
    0 ≤ s.beta ∧ s.beta ≤ 0.9999 ∧ 1 ≤ gammaOf s.beta ∧
      ∃ solution worldline earth,
        response = some ⟨some solution, some worldline, some earth⟩ ∧
        s.beta = clampBeta (betaRawOf solution worldline progress) := by
  obtain ⟨sol, w, e, hresp, hcore⟩ := hook_ok_some response progress s h
  obtain ⟨-, p0, p1, ep, -, -, -, hs⟩ := interpCore_ok_some sol w e progress s hcore
  subst hs
  exact ⟨clampBeta_nonneg _, clampBeta_le _,
    one_le_gammaOf _ (clampBeta_nonneg _) (clampBeta_le _), sol, w, e, hresp, rfl⟩

/-- C1 witness: the corrupt raw β = 1.5 of `respC1` comes back as 0.9999. -/
theorem returned_beta_clamped_gamma_ge_one_witness :
    0 ≤ stateC1.beta ∧ stateC1.beta ≤ 0.9999 ∧ 1 ≤ gammaOf stateC1.beta ∧
      ∃ solution worldline earth,
        (some respC1 : Option SolveResponse) = some ⟨some solution, some worldline, some earth⟩ ∧
        stateC1.beta = clampBeta (betaRawOf solution worldline 0) :=
  returned_beta_clamped_gamma_ge_one (some respC1) 0 stateC1 (by
    norm_num [useWorldlineInterpolation, respC1, solC1, wlC1, earthEmpty, stateC1, interpCore,
      coordTimeOf, intervalOf, fracOf, properTimeOf, betaRawOf, clampBeta, phaseOf,
      findInterval, findIntervalAux_stop, findIntervalAux_step_le, findIntervalAux_step_gt,
      lerp, lerpPos, rowGet, interpolateEarthPosition, determinePhaseV1, List.getD])

/-- `interpCore` answers `null` exactly for a short worldline. -/
theorem interpCore_ok_none_iff (solution : SolutionData) (worldline : WorldlineData)
    (earth : EarthData) (progress : ℚ) :
    interpCore solution worldline earth progress = .ok none ↔
      worldline.coord_times_years.length < 2 := by
  constructor
  · intro h
    unfold interpCore at h
    simp only [] at h
    split at h
    · assumption
    · split at h
      · exact absurd h (by simp)
      · exact absurd h (by simp)
      · split at h
        · exact absurd h (by simp)
        · exact absurd h (by simp)
  · intro h
    unfold interpCore
    simp only [if_pos h]

/-- A row access within range cannot raise. -/
theorem rowGet_ne_error (rows : List (List ℚ)) (i : ℕ) (hi : i < rows.length) (err : JsError) :
    rowGet rows i ≠ .error err := by
  unfold rowGet
  rw [List.get?_eq_get hi]
  simp

/-- With one position row per sample time, the reference-body interpolation
cannot raise. -/
theorem interpolateEarthPosition_ne_error (earth : EarthData) (coordTime : ℚ)
    (halign : earth.trajectory_positions_au.length = earth.trajectory_times_years.length)
    (err : JsError) : interpolateEarthPosition earth coordTime ≠ .error err := by
  unfold interpolateEarthPosition
  simp only []
  split
  · simp
  · rename_i hne
    split
    · rename_i hle
      have h0 : 0 < earth.trajectory_positions_au.length := by omega
      cases hrow : rowGet earth.trajectory_positions_au 0 with
      | error e => exact absurd hrow (rowGet_ne_error _ _ h0 e)
      | ok p => simp [hrow]
    · rename_i hgt
      split
      · rename_i hge
        have h0 : earth.trajectory_positions_au.length - 1 <
            earth.trajectory_positions_au.length := by omega
        cases hrow : rowGet earth.trajectory_positions_au
            (earth.trajectory_positions_au.length - 1) with
        | error e => exact absurd hrow (rowGet_ne_error _ _ h0 e)
        | ok p => simp [hrow]
      · rename_i hlt
        have h2 : 2 ≤ earth.trajectory_times_years.length := by
          rcases Nat.lt_or_ge earth.trajectory_times_years.length 2 with hl | hl
          · interval_cases h : earth.trajectory_times_years.length
            · omega
            · exfalso
              simp only [Nat.sub_self] at hlt
              linarith [lt_of_not_le hlt, lt_of_not_le hgt]
          · exact hl
        have hi : findInterval earth.trajectory_times_years coordTime ≤
            earth.trajectory_times_years.length - 2 := findInterval_le _ _
        have hi0 : findInterval earth.trajectory_times_years coordTime <
            earth.trajectory_positions_au.length := by omega
        have hi1 : findInterval earth.trajectory_times_years coordTime + 1 <
            earth.trajectory_positions_au.length := by omega
        cases hrow0 : rowGet earth.trajectory_positions_au
            (findInterval earth.trajectory_times_years coordTime) with
        | error e => exact absurd hrow0 (rowGet_ne_error _ _ hi0 e)
        | ok p0 =>
          cases hrow1 : rowGet earth.trajectory_positions_au
              (findInterval earth.trajectory_times_years coordTime + 1) with
          | error e => exact absurd hrow1 (rowGet_ne_error _ _ hi1 e)
          | ok p1 => simp [hrow0, hrow1]

/-- With one position row per sample time, the interpolation body cannot
raise. -/
theorem interpCore_ne_error (solution : SolutionData) (worldline : WorldlineData)
    (earth : EarthData) (progress : ℚ)
    (hwp : worldline.positions_au.length = worldline.coord_times_years.length)
    (hep : earth.trajectory_positions_au.length = earth.trajectory_times_years.length)
    (err : JsError) :
    interpCore solution worldline earth progress ≠ .error err := by
  unfold interpCore
  simp only []
  split
  · simp
  · rename_i hn
    have hi : intervalOf worldline progress ≤ worldline.coord_times_years.length - 2 :=
      findInterval_le _ _
    have h0 : intervalOf worldline progress < worldline.positions_au.length := by omega
    have h1 : intervalOf worldline progress + 1 < worldline.positions_au.length := by omega
    cases hrow0 : rowGet worldline.positions_au (intervalOf worldline progress) with
    | error e => exact absurd hrow0 (rowGet_ne_error _ _ h0 e)
    | ok p0 =>
      cases hrow1 : rowGet worldline.positions_au (intervalOf worldline progress + 1) with
      | error e => exact absurd hrow1 (rowGet_ne_error _ _ h1 e)
      | ok p1 =>
        cases hearth : interpolateEarthPosition earth (coordTimeOf worldline progress) with
        | error e => exact absurd hearth (interpolateEarthPosition_ne_error earth _ hep e)
        | ok ep => simp [hrow0, hrow1, hearth]

/-- C2 (amended): the hook answers `null` exactly when solution, worldline
or reference body is absent or the worldline has fewer than 2 samples; and
it raises no exception provided each positions array has one row per sample
time (for present data with missing position rows it throws, see the
counterexample). -/
theorem interp_none_iff_and_no_throw (r : SolveResponse) (progress : ℚ) :
    (useWorldlineInterpolation (some r) progress = .ok none ↔
      r.solution = none ∨ r.worldline = none ∨ r.earth = none ∨
        ∃ w, r.worldline = some w ∧ w.coord_times_years.length < 2) ∧
    (∀ solution worldline earth,
      r.solution = some solution → r.worldline = some worldline → r.earth = some earth →
      worldline.positions_au.length = worldline.coord_times_years.length →
      earth.trajectory_positions_au.length = earth.trajectory_times_years.length →
      ∀ err, useWorldlineInterpolation (some r) progress ≠ .error err) := by
  obtain ⟨osol, ow, oe⟩ := r
  constructor
  · match osol, ow, oe with
    | none, _, _ => simp [useWorldlineInterpolation]
    | some sol, none, _ => simp [useWorldlineInterpolation]
    | some sol, some w, none => simp [useWorldlineInterpolation]
    | some sol, some w, some e =>
      simp only [useWorldlineInterpolation]
      rw [interpCore_ok_none_iff]
      simp
  · intro sol w e hsol hw he hwp hep err
    cases hsol; cases hw; cases he
    simpa [useWorldlineInterpolation] using interpCore_ne_error sol w e progress hwp hep err

/-- C2 counterexample: data all present, worldline with 2 sample times but
an empty positions array — the hook throws a `TypeError` instead of
returning a state or `null`. -/
theorem interp_throws_on_present_malformed_data :
    useWorldlineInterpolation (some respBadC2) (1/2) = .error .typeError := by
  norm_num [useWorldlineInterpolation, respBadC2, solC1, earthEmpty, interpCore,
    coordTimeOf, intervalOf, fracOf, findInterval,
    findIntervalAux_stop, findIntervalAux_step_le, findIntervalAux_step_gt,
    lerp, rowGet, List.getD]



theorem lerp_zero (a b : ℚ) : lerp a b 0 = a := by
  unfold lerp; ring

theorem lerp_one (a b : ℚ) : lerp a b 1 = b := by
  unfold lerp; ring

theorem lerpPos_zero (a b : List ℚ) : lerpPos a b 0 = (a.getD 0 0, a.getD 1 0, a.getD 2 0) := by
  unfold lerpPos
  rw [lerp_zero, lerp_zero, lerp_zero]

theorem lerpPos_one (a b : List ℚ) : lerpPos a b 1 = (b.getD 0 0, b.getD 1 0, b.getD 2 0) := by
  unfold lerpPos
  rw [lerp_one, lerp_one, lerp_one]

theorem rowVal_of_get? (rows : List (List ℚ)) (i : ℕ) (p : List ℚ)
    (h : rows.get? i = some p) :
    rowVal rows i = (p.getD 0 0, p.getD 1 0, p.getD 2 0) := by
  unfold rowVal
  rw [List.getD_eq_getD_get? rows [] i, h]
  rfl

theorem findInterval_first (arr : List ℚ) (hs : arr.Sorted (· < ·)) (hn : 2 ≤ arr.length) :
    findInterval arr (arr.getD 0 0) = 0 := by
  have hlast : arr.getD 0 0 < arr.getD (arr.length - 1) 0 :=
    sorted_getD_lt arr hs 0 (arr.length - 1) (by omega) (by omega)
  have hspec := findInterval_spec arr (arr.getD 0 0) hn (le_refl _) hlast
  have hle := findInterval_le arr (arr.getD 0 0)
  exact interval_unique arr (arr.getD 0 0) hs _ 0 (by omega) (by omega)
    hspec.1 hspec.2 (le_refl _) (sorted_getD_lt arr hs 0 1 (by omega) (by omega))

theorem findInterval_last (arr : List ℚ) (hs : arr.Sorted (· < ·)) (hn : 2 ≤ arr.length) :
    findInterval arr (arr.getD (arr.length - 1) 0) = arr.length - 2 := by
  unfold findInterval
  exact findIntervalAux_saturate arr _ 0 (arr.length - 2) (Nat.zero_le _)
    (fun j hj => sorted_getD_le arr hs j (arr.length - 1) (by omega) (by omega))

/-- C3: with strictly increasing sample times, progress 0 selects interval 0
with fraction 0 and returns the first sample's coordinate time, position and
proper time exactly; progress 1 selects interval n-2 with fraction exactly 1
and returns the last sample's exactly. -/
theorem interp_endpoints_exact (solution : SolutionData) (worldline : WorldlineData)
    (earth : EarthData)
    (hs : worldline.coord_times_years.Sorted (· < ·))
    (hn : 2 ≤ worldline.coord_times_years.length) :
    intervalOf worldline 0 = 0 ∧ fracOf worldline 0 = 0 ∧
    intervalOf worldline 1 = worldline.coord_times_years.length - 2 ∧
    fracOf worldline 1 = 1 ∧
    (∀ s, useWorldlineInterpolation
        (some ⟨some solution, some worldline, some earth⟩) 0 = .ok (some s) →
      s.coordTime = worldline.coord_times_years.getD 0 0 ∧
      s.positionAU = rowVal worldline.positions_au 0 ∧
      s.properTime = worldline.proper_times_years.getD 0 0) ∧
    (∀ s, useWorldlineInterpolation
        (some ⟨some solution, some worldline, some earth⟩) 1 = .ok (some s) →
      s.coordTime = worldline.coord_times_years.getD (worldline.coord_times_years.length - 1) 0 ∧
      s.positionAU = rowVal worldline.positions_au (worldline.coord_times_years.length - 1) ∧
      s.properTime = worldline.proper_times_years.getD
        (worldline.coord_times_years.length - 1) 0) := by
  have hct0 : coordTimeOf worldline 0 = worldline.coord_times_years.getD 0 0 := by
    unfold coordTimeOf
    exact lerp_zero _ _
  have hi0 : intervalOf worldline 0 = 0 := by
    unfold intervalOf
    rw [hct0]
    exact findInterval_first _ hs hn
  have hf0 : fracOf worldline 0 = 0 := by
    unfold fracOf
    simp only [hi0, hct0]
    have h01 : worldline.coord_times_years.getD 0 0 < worldline.coord_times_years.getD (0 + 1) 0 :=
      sorted_getD_lt _ hs 0 1 (by omega) (by omega)
    rw [if_pos h01, sub_self, zero_div]
  have hct1 : coordTimeOf worldline 1 =
      worldline.coord_times_years.getD (worldline.coord_times_years.length - 1) 0 := by
    unfold coordTimeOf
    exact lerp_one _ _
  have hi1 : intervalOf worldline 1 = worldline.coord_times_years.length - 2 := by
    unfold intervalOf
    rw [hct1]
    exact findInterval_last _ hs hn
  have hidx : worldline.coord_times_years.length - 2 + 1 =
      worldline.coord_times_years.length - 1 := by omega
  have hf1 : fracOf worldline 1 = 1 := by
    unfold fracOf
    simp only [hi1, hct1, hidx]
    have hlt : worldline.coord_times_years.getD (worldline.coord_times_years.length - 2) 0 <
        worldline.coord_times_years.getD (worldline.coord_times_years.length - 1) 0 :=
      sorted_getD_lt _ hs _ _ (by omega) (by omega)
    rw [if_pos hlt, div_self (sub_ne_zero_of_ne (ne_of_gt hlt))]
  refine ⟨hi0, hf0, hi1, hf1, ?_, ?_⟩
  · intro s h
    simp only [useWorldlineInterpolation] at h
    obtain ⟨-, p0, p1, ep, hp0, hp1, -, hs_eq⟩ := interpCore_ok_some _ _ _ _ _ h
    subst hs_eq
    rw [hi0] at hp0
    refine ⟨hct0, ?_, ?_⟩
    · show lerpPos p0 p1 (fracOf worldline 0) = _
      rw [hf0, lerpPos_zero, rowVal_of_get? _ _ _ hp0]
    · show properTimeOf worldline 0 = _
      unfold properTimeOf
      rw [hf0, lerp_zero, hi0]
  · intro s h
    simp only [useWorldlineInterpolation] at h
    obtain ⟨-, p0, p1, ep, hp0, hp1, -, hs_eq⟩ := interpCore_ok_some _ _ _ _ _ h
    subst hs_eq
    rw [hi1, hidx] at hp1
    refine ⟨hct1, ?_, ?_⟩
    · show lerpPos p0 p1 (fracOf worldline 1) = _
      rw [hf1, lerpPos_one, rowVal_of_get? _ _ _ hp1]
    · show properTimeOf worldline 1 = _
      unfold properTimeOf
      rw [hf1, lerp_one, hi1, hidx]



theorem interp_endpoints_exact_witness :
    intervalOf wl5 0 = 0 ∧ fracOf wl5 0 = 0 ∧
    intervalOf wl5 1 = wl5.coord_times_years.length - 2 ∧
    fracOf wl5 1 = 1 ∧
    (∀ s, useWorldlineInterpolation
        (some ⟨some sol5, some wl5, some earthEmpty⟩) 0 = .ok (some s) →
      s.coordTime = wl5.coord_times_years.getD 0 0 ∧
      s.positionAU = rowVal wl5.positions_au 0 ∧
      s.properTime = wl5.proper_times_years.getD 0 0) ∧
    (∀ s, useWorldlineInterpolation
        (some ⟨some sol5, some wl5, some earthEmpty⟩) 1 = .ok (some s) →
      s.coordTime = wl5.coord_times_years.getD (wl5.coord_times_years.length - 1) 0 ∧
      s.positionAU = rowVal wl5.positions_au (wl5.coord_times_years.length - 1) ∧
      s.properTime = wl5.proper_times_years.getD (wl5.coord_times_years.length - 1) 0) :=
  interp_endpoints_exact sol5 wl5 earthEmpty
    (by norm_num [wl5, List.sorted_cons]) (by norm_num [wl5])

theorem linearScanAux_spec (arr : List ℚ) (target : ℚ)
    (hhi : target < arr.getD (arr.length - 1) 0) :
    ∀ i, i ≤ arr.length - 2 → 2 ≤ arr.length → arr.getD i 0 ≤ target →
      linearScanAux arr target i ≤ arr.length - 2 ∧
      arr.getD (linearScanAux arr target i) 0 ≤ target ∧
      target < arr.getD (linearScanAux arr target i + 1) 0 := by
  intro i
  induction i using linearScanAux.induct arr target with
  | case1 i hlen hlt =>
    intro hle h2 hlo
    rw [linearScanAux.eq_def, if_pos hlen, if_pos hlt]
    exact ⟨hle, hlo, hlt⟩
  | case2 i hlen hnlt ih =>
    intro hle h2 hlo
    rw [linearScanAux.eq_def, if_pos hlen, if_neg hnlt]
    exact ih (by omega) h2 (not_lt.mp hnlt)
  | case3 i hnlen =>
    intro hle h2 hlo
    rw [linearScanAux.eq_def, if_neg hnlen]
    have hieq : i = arr.length - 2 := by omega
    refine ⟨hle, hlo, ?_⟩
    rw [hieq]
    have : arr.length - 2 + 1 = arr.length - 1 := by omega
    rw [this]
    exact hhi

/-- C4: on a strictly increasing array of length at least 2 and a target
inside the array's range, the binary search agrees with the reference
linear scan that selects the `i` with `arr[i] ≤ target < arr[i+1]`. -/
theorem findInterval_eq_linearScan (arr : List ℚ) (target : ℚ)
    (hs : arr.Sorted (· < ·)) (hn : 2 ≤ arr.length)
    (h0 : arr.getD 0 0 ≤ target) (h1 : target < arr.getD (arr.length - 1) 0) :
    findInterval arr target = linearScanInterval arr target := by
  have hb := findInterval_spec arr target hn h0 h1
  have hbl := findInterval_le arr target
  have hl := linearScanAux_spec arr target h1 0 (by omega) hn h0
  unfold linearScanInterval
  exact interval_unique arr target hs _ _ (by omega) (by omega)
    hb.1 hb.2 hl.2.1 hl.2.2

theorem findInterval_eq_linearScan_witness :
    findInterval [0, 1, 2] (3/2) = linearScanInterval [0, 1, 2] (3/2) :=
  findInterval_eq_linearScan [0, 1, 2] (3/2)
    (by norm_num [List.sorted_cons]) (by norm_num)
    (by norm_num [List.getD]) (by norm_num [List.getD])

/-- C9: `findInterval` is total (the Lean definition is accepted with
`hi - lo` as decreasing measure, mirroring the loop's progress) and for any
array of length at least 2 and any target — below, inside or above the
range — the returned index satisfies `i ≤ n-2`, so the caller's accesses at
`i` and `i+1` are in bounds. -/
theorem findInterval_always_in_bounds (arr : List ℚ) (target : ℚ)
    (h : 2 ≤ arr.length) :
    findInterval arr target ≤ arr.length - 2 ∧
      findInterval arr target + 1 < arr.length := by
  have hb := findInterval_le arr target
  exact ⟨hb, by omega⟩

theorem findInterval_always_in_bounds_witness :
    findInterval [0, 1, 2] 100 ≤ [(0 : ℚ), 1, 2].length - 2 ∧
      findInterval [0, 1, 2] 100 + 1 < [(0 : ℚ), 1, 2].length :=
  findInterval_always_in_bounds [0, 1, 2] 100 (by norm_num)



/-- C5: the spec's scenario — 3 samples at times [0,1,2] yr, positions
[(0,0,0),(1,0,0),(0,0,0)], proper times [0,0.8,1.5] — interpolated at
progress 0.25 under the constant-velocity model yields coordinate time 0.5,
position (0.5,0,0), proper time 0.4 and phase ACCELERATING (position and
proper time share interval index and fraction by construction). -/
theorem interp_scenario_quarter :
    useWorldlineInterpolation (some resp5) 0.25 = .ok (some state5) := by
  norm_num [useWorldlineInterpolation, resp5, sol5, wl5, earthEmpty, state5, interpCore,
    coordTimeOf, intervalOf, fracOf, properTimeOf, betaRawOf, clampBeta, phaseOf,
    findInterval, findIntervalAux_stop, findIntervalAux_step_le, findIntervalAux_step_gt,
    lerp, lerpPos, rowGet, interpolateEarthPosition, determinePhaseV1, List.getD]

/-- C6: in the multi-phase model the phase is a pure threshold function of
the coordinate time: below the first boundary ACCELERATING, then COASTING,
then TURNAROUND, and DECELERATING from the third boundary on (in particular
past the last); with exactly 2 boundaries COASTING/TURNAROUND are skipped;
and boundaries [1,3,3,5] at t = 3.5 give DECELERATING. -/
theorem phase_v2_pure_thresholds (b0 b1 b2 b3 c0 c1 t u : ℚ)
    (h01 : b0 ≤ b1) (h12 : b1 ≤ b2) (h23 : b2 ≤ b3) (_hc2 : c0 ≤ c1) :
    (t < b0 → determinePhaseV2 t [b0, b1, b2, b3] = "ACCELERATING") ∧
    (b0 ≤ t → t < b1 → determinePhaseV2 t [b0, b1, b2, b3] = "COASTING") ∧
    (b1 ≤ t → t < b2 → determinePhaseV2 t [b0, b1, b2, b3] = "TURNAROUND") ∧
    (b2 ≤ t → determinePhaseV2 t [b0, b1, b2, b3] = "DECELERATING") ∧
    (b3 ≤ t → determinePhaseV2 t [b0, b1, b2, b3] = "DECELERATING") ∧
    (u < c0 → determinePhaseV2 u [c0, c1] = "ACCELERATING") ∧
    (c0 ≤ u → determinePhaseV2 u [c0, c1] = "DECELERATING") ∧
    determinePhaseV2 u [c0, c1] ≠ "COASTING" ∧
    determinePhaseV2 u [c0, c1] ≠ "TURNAROUND" ∧
    determinePhaseV2 (7/2) [1, 3, 3, 5] = "DECELERATING" := by
  refine ⟨?_, ?_, ?_, ?_, ?_, ?_, ?_, ?_, ?_, ?_⟩
  · intro h
    simp [determinePhaseV2, h]
  · intro ha hb
    simp [determinePhaseV2, not_lt.mpr ha, hb]
  · intro ha hb
    simp [determinePhaseV2, not_lt.mpr (le_trans h01 ha), not_lt.mpr ha, hb]
  · intro ha
    simp [determinePhaseV2, not_lt.mpr (le_trans h01 (le_trans h12 ha)),
      not_lt.mpr (le_trans h12 ha), not_lt.mpr ha]
  · intro ha
    have hb : b2 ≤ t := le_trans h23 ha
    simp [determinePhaseV2, not_lt.mpr (le_trans h01 (le_trans h12 hb)),
      not_lt.mpr (le_trans h12 hb), not_lt.mpr hb]
  · intro h
    simp [determinePhaseV2, h]
  · intro h
    simp [determinePhaseV2, not_lt.mpr h]
  · unfold determinePhaseV2
    simp only [List.length_cons, List.length_nil]
    norm_num
    split_ifs <;> decide
  · unfold determinePhaseV2
    simp only [List.length_cons, List.length_nil]
    norm_num
    split_ifs <;> decide
  · norm_num [determinePhaseV2, List.getD]

theorem phase_v2_pure_thresholds_witness :
    ((7:ℚ)/2 < 1 → determinePhaseV2 (7/2) [1, 3, 3, 5] = "ACCELERATING") ∧
    ((1:ℚ) ≤ 7/2 → (7:ℚ)/2 < 3 → determinePhaseV2 (7/2) [1, 3, 3, 5] = "COASTING") ∧
    ((3:ℚ) ≤ 7/2 → (7:ℚ)/2 < 3 → determinePhaseV2 (7/2) [1, 3, 3, 5] = "TURNAROUND") ∧
    ((3:ℚ) ≤ 7/2 → determinePhaseV2 (7/2) [1, 3, 3, 5] = "DECELERATING") ∧
    ((5:ℚ) ≤ 7/2 → determinePhaseV2 (7/2) [1, 3, 3, 5] = "DECELERATING") ∧
    ((5:ℚ) < 2 → determinePhaseV2 5 [2, 4] = "ACCELERATING") ∧
    ((2:ℚ) ≤ 5 → determinePhaseV2 5 [2, 4] = "DECELERATING") ∧
    determinePhaseV2 5 [2, 4] ≠ "COASTING" ∧
    determinePhaseV2 5 [2, 4] ≠ "TURNAROUND" ∧
    determinePhaseV2 (7/2) [1, 3, 3, 5] = "DECELERATING" :=
  phase_v2_pure_thresholds 1 3 3 5 2 4 (7/2) 5
    (by norm_num) (by norm_num) (by norm_num) (by norm_num)



/-- Each clock operation preserves the invariant, given a positive speed
argument for `setSpeed` and a frame timestamp at or after the anchor. -/
theorem applyOp_preserves_inv (s : ClockState) (op : ClockOp)
    (hinv : clockInv s) (hval : opValid s op) : clockInv (applyOp op s) := by
  obtain ⟨h0, h1, hsp⟩ := hinv
  cases op with
  | play =>
    unfold applyOp clockInv
    simp only []
    split_ifs with hp
    · exact ⟨le_refl 0, by norm_num, hsp⟩
    · exact ⟨h0, h1, hsp⟩
  | pause => exact ⟨h0, h1, hsp⟩
  | seek p =>
    refine ⟨le_max_left _ _, ?_, hsp⟩
    exact max_le (by norm_num) (min_le_left _ _)
  | setSpeed v => exact ⟨h0, h1, hval⟩
  | reset => exact ⟨le_refl 0, show (0:ℚ) ≤ 1 by norm_num, hsp⟩
  | tick now =>
    unfold applyOp clockTick
    simp only []
    split_ifs with hplay hanchor hend
    · exact ⟨h0, h1, hsp⟩
    · have hdt : 0 ≤ now - s.lastFrame := by
        have : s.lastFrame ≤ now := hval
        linarith
      have hdp : 0 ≤ (now - s.lastFrame) / BASE_DURATION_MS * s.speed := by
        apply mul_nonneg
        · apply div_nonneg hdt
          norm_num [BASE_DURATION_MS]
        · exact le_of_lt hsp
      exact ⟨le_min (by norm_num) (by linarith), min_le_left _ _, hsp⟩
    · have hdt : 0 ≤ now - s.lastFrame := by
        have : s.lastFrame ≤ now := hval
        linarith
      have hdp : 0 ≤ (now - s.lastFrame) / BASE_DURATION_MS * s.speed := by
        apply mul_nonneg
        · apply div_nonneg hdt
          norm_num [BASE_DURATION_MS]
        · exact le_of_lt hsp
      exact ⟨le_min (by norm_num) (by linarith), min_le_left _ _, hsp⟩
    · exact ⟨h0, h1, hsp⟩

theorem foldl_preserves_inv (ops : List ClockOp) :
    ∀ s, clockInv s → validSeq s ops →
      clockInv (ops.foldl (fun s op => applyOp op s) s) := by
  induction ops with
  | nil => exact fun s h _ => h
  | cons op rest ih =>
    intro s h hv
    exact ih (applyOp op s) (applyOp_preserves_inv s op h hv.1) hv.2

/-- C7 (amended): from the initial state, any sequence of clock operations
with non-negative frame deltas and positive `setSpeed` arguments keeps
progress in [0,1] and the speed multiplier positive. -/
theorem clock_invariant_valid_ops (ops : List ClockOp)
    (hv : validSeq initialClock ops) : clockInv (runOps ops) :=
  foldl_preserves_inv ops initialClock (by norm_num [clockInv, initialClock]) hv

theorem clock_invariant_valid_ops_witness : clockInv (runOps opsC7) :=
  clock_invariant_valid_ops opsC7 (by
    norm_num [validSeq, opValid, applyOp, clockTick, initialClock, BASE_DURATION_MS, opsC7])

/-- C7 counterexample: the clock accepts `setSpeed(-1)` unvalidated — the
speed-positivity half of the invariant fails immediately, and two further
frames (with non-negative wall-clock deltas) drive progress below 0. -/
theorem clock_invariant_broken_by_setSpeed :
    ¬ clockInv (runOps [ClockOp.setSpeed (-1)]) ∧
    (runOps [ClockOp.play, ClockOp.tick 1, ClockOp.tick 2, ClockOp.setSpeed (-1),
      ClockOp.tick 3, ClockOp.tick 4]).progress < 0 := by
  constructor
  · norm_num [clockInv, runOps, applyOp, initialClock]
  · norm_num [runOps, applyOp, clockTick, initialClock, BASE_DURATION_MS]



/-- C10: a present reference body with zero samples falls back to the fixed
position (1,0,0), and interpolation still returns a full state whenever the
worldline itself has at least 2 samples (with its one position row per
sample time). -/
theorem earth_empty_fallback (r : SolveResponse) (solution : SolutionData)
    (worldline : WorldlineData) (earth : EarthData) (progress t : ℚ)
    (hsol : r.solution = some solution) (hw : r.worldline = some worldline)
    (he : r.earth = some earth)
    (hempty : earth.trajectory_times_years = [])
    (hn : 2 ≤ worldline.coord_times_years.length)
    (hwp : worldline.positions_au.length = worldline.coord_times_years.length) :
    interpolateEarthPosition earth t = .ok (1, 0, 0) ∧
    ∃ s, useWorldlineInterpolation (some r) progress = .ok (some s) ∧
      s.earthPositionAU = (1, 0, 0) := by
  have hfall : ∀ u : ℚ, interpolateEarthPosition earth u = .ok (1, 0, 0) := by
    intro u
    unfold interpolateEarthPosition
    simp [hempty]
  refine ⟨hfall t, ?_⟩
  obtain ⟨osol, ow, oe⟩ := r
  simp only at hsol hw he
  subst hsol; subst hw; subst he
  simp only [useWorldlineInterpolation]
  unfold interpCore
  simp only [if_neg (by omega : ¬ worldline.coord_times_years.length < 2)]
  have hi : intervalOf worldline progress ≤ worldline.coord_times_years.length - 2 :=
    findInterval_le _ _
  have h0 : intervalOf worldline progress < worldline.positions_au.length := by omega
  have h1 : intervalOf worldline progress + 1 < worldline.positions_au.length := by omega
  have hr0 : rowGet worldline.positions_au (intervalOf worldline progress) =
      .ok (worldline.positions_au.get ⟨_, h0⟩) := by
    unfold rowGet
    rw [List.get?_eq_get h0]
  have hr1 : rowGet worldline.positions_au (intervalOf worldline progress + 1) =
      .ok (worldline.positions_au.get ⟨_, h1⟩) := by
    unfold rowGet
    rw [List.get?_eq_get h1]
  rw [hr0, hr1, hfall (coordTimeOf worldline progress)]
  exact ⟨_, rfl, rfl⟩

theorem earth_empty_fallback_witness :
    interpolateEarthPosition earthEmpty 7 = .ok (1, 0, 0) ∧
    ∃ s, useWorldlineInterpolation (some resp5) (1/3) = .ok (some s) ∧
      s.earthPositionAU = (1, 0, 0) :=
  earth_empty_fallback resp5 sol5 wl5 earthEmpty (1/3) 7
    rfl rfl rfl rfl (by norm_num [wl5]) (by norm_num [wl5])



/-- Cauchy–Schwarz for the explicit 3-vector dot product. -/
theorem dot3_sq_le_one (v dir : ℝ × ℝ × ℝ) (hv : dot3 v v = 1) (hd : dot3 dir dir = 1) :
    dot3 dir v * dot3 dir v ≤ 1 := by
  obtain ⟨v1, v2, v3⟩ := v
  obtain ⟨d1, d2, d3⟩ := dir
  unfold dot3 at *
  simp only at hv hd ⊢
  nlinarith [sq_nonneg (d1 * v2 - d2 * v1), sq_nonneg (d1 * v3 - d3 * v1),
    sq_nonneg (d2 * v3 - d3 * v2)]

/-- At β = 0 the clamped aberration cosine is the original cosine. -/
theorem cosThetaPrimeOf_zero (c : ℝ) (hm : -1 ≤ c) (hp : c ≤ 1) :
    cosThetaPrimeOf 0 c = c := by
  unfold cosThetaPrimeOf glslClamp
  have hmax : max (1 - 0 * c) 0.001 = 1 := by norm_num
  rw [hmax]
  rw [show (c - 0) / 1 = c by ring]
  rw [max_eq_left hm, min_eq_left hp]

/-- C8 (amended): with β = 0 and γ = 1, the Doppler factor is exactly 1 for
every point direction, and the reconstructed aberrated direction equals the
input direction for every unit direction outside the shader's
`sinθ ≤ 0.001` fallback cone (inside that cone the shader snaps to ± the
velocity direction, see the counterexample). -/
theorem starfield_identity_at_rest (v dir : ℝ × ℝ × ℝ)
    (hv : dot3 v v = 1) (hd : dot3 dir dir = 1) :
    dopplerOf 0 1 (dot3 dir v) = 1 ∧
    (0.001 < Real.sqrt (1 - dot3 dir v * dot3 dir v) → aberratedDir 0 v dir = dir) := by
  have hsq := dot3_sq_le_one v dir hv hd
  have hle : dot3 dir v ≤ 1 := by nlinarith [sq_nonneg (dot3 dir v - 1)]
  have hge : -1 ≤ dot3 dir v := by nlinarith [sq_nonneg (dot3 dir v + 1)]
  constructor
  · unfold dopplerOf glslClamp
    norm_num
  · intro hsin
    unfold aberratedDir
    simp only []
    rw [cosThetaPrimeOf_zero _ hge hle]
    rw [if_pos hsin]
    have hs0 : (0.001 : ℝ) < Real.sqrt (1 - dot3 dir v * dot3 dir v) := hsin
    have hsne : Real.sqrt (1 - dot3 dir v * dot3 dir v) ≠ 0 := by positivity
    obtain ⟨v1, v2, v3⟩ := v
    obtain ⟨d1, d2, d3⟩ := dir
    unfold add3 smul3 sub3
    simp only [Prod.mk.injEq]
    refine ⟨?_, ?_, ?_⟩ <;> field_simp



theorem starfield_identity_at_rest_witness :
    dopplerOf 0 1 (dot3 ((0:ℝ), 1, 0) ((1:ℝ), 0, 0)) = 1 ∧
    (0.001 < Real.sqrt (1 - dot3 ((0:ℝ), 1, 0) ((1:ℝ), 0, 0) * dot3 ((0:ℝ), 1, 0) ((1:ℝ), 0, 0)) →
      aberratedDir 0 ((1:ℝ), 0, 0) ((0:ℝ), 1, 0) = ((0:ℝ), 1, 0)) :=
  starfield_identity_at_rest ((1:ℝ), 0, 0) ((0:ℝ), 1, 0)
    (by norm_num [dot3]) (by norm_num [dot3])

/-- C8 counterexample: at β = 0 the unit direction `dirC8` (cosθ =
15999999/16000001, sinθ ≈ 0.0005) falls inside the shader's `sinθ ≤ 0.001`
guard, which returns the velocity axis instead of the input direction: the
aberration is not the identity for every unit point direction even at rest
(the Doppler factor is still 1 there). -/
theorem aberration_not_identity_in_guard_cone :
    dot3 dirC8 dirC8 = 1 ∧ dot3 vC8 vC8 = 1 ∧
    dopplerOf 0 1 (dot3 dirC8 vC8) = 1 ∧
    aberratedDir 0 vC8 dirC8 ≠ dirC8 := by
  refine ⟨by norm_num [dot3, dirC8], by norm_num [dot3, vC8], ?_, ?_⟩
  · unfold dopplerOf glslClamp
    norm_num
  · unfold aberratedDir
    simp only []
    have hc : dot3 dirC8 vC8 = 15999999 / 16000001 := by
      norm_num [dot3, dirC8, vC8]
    rw [hc]
    have hsq : (1 : ℝ) - 15999999 / 16000001 * (15999999 / 16000001) =
        (8000 / 16000001) ^ 2 := by norm_num
    rw [hsq, Real.sqrt_sq (by norm_num : (0:ℝ) ≤ 8000 / 16000001)]
    rw [if_neg (by norm_num : ¬ (0.001 : ℝ) < 8000 / 16000001)]
    unfold glslSign smul3 vC8 dirC8
    rw [if_pos (by norm_num : (0:ℝ) < 15999999 / 16000001)]
    intro h
    simp only [Prod.mk.injEq] at h
    obtain ⟨h1, -⟩ := h
    norm_num at h1

end Marte
